import Mathlib

/-!
Verification development for the dashboard / marketplace services of the
vaultapps backend.  The Python services are shallowly embedded: timestamps
are integers (seconds since an arbitrary epoch, one day = 86400 seconds),
money and percentages are rationals, optional record fields (Python
`hasattr` probing) are `Option`, and the record store queried through the
ORM is passed in explicitly as a list of records.
-/

namespace Vaultapps

/-- One day in seconds; `timedelta(days = n)` is `n * daySecs`. -/
def daySecs : ℤ := 86400

/-- A `Bet` record as the dashboard service reads it: owner id, creation
timestamp, status string (`"pending"`, `"win"`, `"loss"`, ...), signed
stake, optional settled profit, optional event label. -/
structure Bet where
  user_id : ℕ
  created_at : ℤ
  status : String
  amount : ℚ
  profit : Option ℚ
  event_name : Option String
deriving DecidableEq, Repr

/-- Embeds `DashboardService._calculate_percentage_change`: percentage change of
`current_value` against `previous_value`, with the division-by-zero
convention `previous_value == 0 → 0`. -/
def calculate_percentage_change (current_value previous_value : ℚ) : ℚ :=
  if previous_value = 0 then 0
  else ((current_value - previous_value) / |previous_value|) * 100

/-- Embeds `DashboardService._calculate_win_rate`: share of `"win"` bets among
`bets`, as a percentage; `0` on the empty list. -/
def calculate_win_rate (bets : List Bet) : ℚ :=
  if bets.isEmpty then 0
  else
    let winning_bets := bets.filter (fun b => b.status == "win")
    ((winning_bets.length : ℚ) / (bets.length : ℚ)) * 100

/-- The query shared by `_calculate_period_profit` and
`_calculate_period_win_rate`: the owner's non-pending bets with
`created_at ≥ start_date`, further restricted to `created_at < end_date`
when an end date is given. -/
def periodQuery (bets : List Bet) (user_id : ℕ) (start_date : ℤ)
    (end_date : Option ℤ) : List Bet :=
  let q := bets.filter
    (fun b => b.user_id == user_id && start_date ≤ b.created_at &&
      b.status != "pending")
  match end_date with
  | some e => q.filter (fun b => b.created_at < e)
  | none => q

/-- Embeds `DashboardService._calculate_period_profit`: sum of `profit` over the
period's bets, skipping bets that carry no profit value. -/
def calculate_period_profit (bets : List Bet) (user_id : ℕ) (start_date : ℤ)
    (end_date : Option ℤ) : ℚ :=
  ((periodQuery bets user_id start_date end_date).filterMap
    (fun b => b.profit)).sum

/-- Embeds `DashboardService._calculate_period_win_rate`. -/
def calculate_period_win_rate (bets : List Bet) (user_id : ℕ)
    (start_date : ℤ) (end_date : Option ℤ) : ℚ :=
  calculate_win_rate (periodQuery bets user_id start_date end_date)

/-- Embeds `DashboardService._calculate_trend_metric`: compare the metric on the
current window (start `now - current_period_days`, unbounded end) against
the previous window (start `now - previous_period_days`, ending exactly at
the current window's start). -/
def calculate_trend_metric (metric_func : ℕ → ℤ → Option ℤ → ℚ)
    (user_id : ℕ) (now : ℤ)
    (current_period_days previous_period_days : ℕ) : ℚ :=
  let current_period_start := now - current_period_days * daySecs
  let previous_period_start := now - previous_period_days * daySecs
  let current_metric := metric_func user_id current_period_start none
  let previous_metric :=
    metric_func user_id previous_period_start (some current_period_start)
  calculate_percentage_change current_metric previous_metric

/-- Embeds `DashboardService._format_relative_time`, applied to the elapsed time
`now - timestamp` in seconds.  Python's `timedelta` normalises a duration
into `days = elapsed fdiv 86400` and `seconds = elapsed fmod 86400`. -/
def format_relative_time (elapsed : ℤ) : String :=
  let days := elapsed.fdiv 86400
  let seconds := elapsed.fmod 86400
  if 0 < days then toString days ++ "d ago"
  else if 3600 ≤ seconds then toString (seconds.fdiv 3600) ++ "h ago"
  else if 60 ≤ seconds then toString (seconds.fdiv 60) ++ "m ago"
  else "just now"

/-- The `total_profit` sum of `get_user_metrics` (line 45): over the
settled bets of the owner, bets lacking a profit value skipped. -/
def total_profit (bets : List Bet) (user_id : ℕ) : ℚ :=
  let all_bets := bets.filter (fun b => b.user_id == user_id)
  let settled_bets := all_bets.filter (fun b => b.status != "pending")
  (settled_bets.filterMap (fun b => b.profit)).sum

/-- Concrete owner history for the trend scenario of the spec: a bet with
profit 100 inside the last 30 days (day 80 of 100) and a bet with profit 50
in the 30 days before that (day 50). -/
def trendDemoBets : List Bet :=
  [⟨1, 80 * 86400, "win", 10, some 100, none⟩,
   ⟨1, 50 * 86400, "loss", 10, some 50, none⟩]

/-- The sampling frequency of `get_performance_history`, in days:
1D for short ranges, 7D for medium ranges, 15D otherwise. -/
def freqDays (days : ℕ) : ℕ :=
  if days ≤ 30 then 1 else if days ≤ 90 then 7 else 15

/-- Fold of `min` with a default, for the earliest timestamp of a frame. -/
def listMinD (l : List ℤ) (d : ℤ) : ℤ := l.foldr min d

/-- Fold of `max` with a default, for the latest timestamp of a frame. -/
def listMaxD (l : List ℤ) (d : ℤ) : ℤ := l.foldr max d

/-- Earliest `date` of a non-empty `bet_data` frame (`0` on the empty
frame, which the resampler never sees). -/
def minDate (data : List (ℤ × ℚ)) : ℤ :=
  match data with
  | [] => 0
  | d :: ds => listMinD (ds.map Prod.fst) d.1

/-- Latest `date` of a non-empty `bet_data` frame. -/
def maxDate (data : List (ℤ × ℚ)) : ℤ :=
  match data with
  | [] => 0
  | d :: ds => listMaxD (ds.map Prod.fst) d.1

/-- The left edge of the first pandas resampling bin: the earliest
timestamp floored to the start of its calendar day (the default
start_day origin). -/
def binOrigin (data : List (ℤ × ℚ)) : ℤ := 86400 * ((minDate data).fdiv 86400)

/-- Number of fixed-width bins laid contiguously from `binOrigin` until the
bin holding the latest timestamp. -/
def numBuckets (width : ℤ) (data : List (ℤ × ℚ)) : ℕ :=
  ((maxDate data - binOrigin data).fdiv width).toNat + 1

/-- Sum of `profit` inside bin `i` (left-closed, right-open); an empty bin
sums to `0`. -/
def bucketSum (width : ℤ) (data : List (ℤ × ℚ)) (i : ℕ) : ℚ :=
  ((data.filter (fun p => binOrigin data + i * width ≤ p.1 &&
    p.1 < binOrigin data + (i + 1) * width)).map Prod.snd).sum

/-- Embeds `df.resample(freq).sum()`: one `(bin left edge, bin profit sum)` row
per contiguous bin, in chronological order, empty bins included. -/
def resampleSums (width : ℤ) (data : List (ℤ × ℚ)) : List (ℤ × ℚ) :=
  if data.isEmpty then []
  else (List.range (numBuckets width data)).map
    (fun i : ℕ => (binOrigin data + (i : ℤ) * width, bucketSum width data i))

/-- Running total of the second components (the profit cumsum of the
resampled frame), starting from `acc`. -/
def cumsum (acc : ℚ) : List (ℤ × ℚ) → List (ℤ × ℚ)
  | [] => []
  | p :: ps => (p.1, acc + p.2) :: cumsum (acc + p.2) ps

/-- Python's `round(x, 2)` on exact rationals. -/
def round2 (x : ℚ) : ℚ := (round (x * 100) : ℚ) / 100

/-- The `bet_data` frame of `get_performance_history`: `(created_at,
profit)` for the owner's non-pending bets of the last `days` days that
carry a profit value. -/
def betData (bets : List Bet) (user_id : ℕ) (now : ℤ) (days : ℕ) :
    List (ℤ × ℚ) :=
  let start_date := now - days * daySecs
  let qbets := bets.filter
    (fun b => b.user_id == user_id && start_date ≤ b.created_at &&
      b.status != "pending")
  qbets.filterMap (fun b => b.profit.map (fun p => (b.created_at, p)))

/-- Concrete owner history for the resampler scenarios: two settled bets
two days apart (with an empty day between their buckets at 1-day width). -/
def perfDemoBets : List Bet :=
  [⟨1, 95 * 86400 + 3600, "win", 10, some 20, none⟩,
   ⟨1, 97 * 86400 + 7200, "loss", 10, some (-5), none⟩]

/-- Embeds `DashboardService.get_performance_history`: resample the owner's
settled-bet profits into fixed-width calendar bins, accumulate, and round.
Each output row keeps the bin's left-edge timestamp as its date (the
source renders it as a month-day label, pure presentation). -/
def get_performance_history (bets : List Bet) (user_id : ℕ) (now : ℤ)
    (days : ℕ) : List (ℤ × ℚ) :=
  let bet_data := betData bets user_id now days
  if bet_data.isEmpty then []
  else
    let freq : ℤ := freqDays days * daySecs
    let resampled := resampleSums freq bet_data
    (cumsum 0 resampled).map (fun p => (p.1, round2 p.2))

/-- A `Subscription` record as the dashboard service reads it. -/
structure Subscription where
  user_id : ℕ
  plan_name : String
  created_at : ℤ
deriving DecidableEq, Repr

/-- An activity item while it still carries its sort key (`"date"`). -/
structure ActivityDated where
  type : String
  description : String
  time : String
  date : ℤ
deriving DecidableEq, Repr

/-- An activity item as returned to the caller: the raw timestamp field
has been deleted, only the relative-time label remains. -/
structure ActivityItem where
  type : String
  description : String
  time : String
deriving DecidableEq, Repr

/-- The activity built from one bet: classify win/loss/placed, describe
with the event label when present and non-empty (Python truthiness),
append the absolute profit for settled bets that carry one. -/
def betActivity (now : ℤ) (b : Bet) : ActivityDated :=
  let settled := b.status == "win" || b.status == "loss"
  let activity_type := if settled then b.status else "bet"
  let verb := if b.status == "win" then "Won"
    else if b.status == "loss" then "Lost" else "Placed"
  let base := match b.event_name with
    | some name =>
        if name == "" then verb ++ " $" ++ toString |b.amount| ++ " bet"
        else verb ++ " $" ++ toString |b.amount| ++ " on " ++ name
    | none => verb ++ " $" ++ toString |b.amount| ++ " bet"
  let description := if settled then
      match b.profit with
      | some p => base ++ " ($" ++ toString |p| ++ ")"
      | none => base
    else base
  ⟨activity_type, description, format_relative_time (now - b.created_at),
    b.created_at⟩

/-- The activity built from one subscription purchase. -/
def subActivity (now : ℤ) (s : Subscription) : ActivityDated :=
  ⟨"purchase", "Purchased " ++ s.plan_name ++ " Plan",
    format_relative_time (now - s.created_at), s.created_at⟩

/-- The merged activity list of `get_recent_activity`, still dated: the
owner's most recent `limit` bets and 3 subscriptions, merged and sorted
descending by timestamp.  Python's `list.sort(reverse=True)` is a stable
descending sort, embedded as the stable `insertionSort` under the
reversed relation. -/
def recentActivityDated (bets : List Bet) (subs : List Subscription)
    (user_id : ℕ) (now : ℤ) (limit : ℕ) : List ActivityDated :=
  let recent_bets := ((bets.filter (fun b => b.user_id == user_id)).insertionSort
    (fun a b => b.created_at ≤ a.created_at)).take limit
  let recent_subscriptions :=
    ((subs.filter (fun s => s.user_id == user_id)).insertionSort
      (fun a b => b.created_at ≤ a.created_at)).take 3
  let activities := recent_bets.map (betActivity now) ++
    recent_subscriptions.map (subActivity now)
  activities.insertionSort (fun a b => b.date ≤ a.date)

/-- Embeds `del activity["date"]`: drop the raw timestamp field. -/
def stripDate (a : ActivityDated) : ActivityItem :=
  ⟨a.type, a.description, a.time⟩

/-- Embeds `DashboardService.get_recent_activity`: the sorted merged feed with
the date field removed, truncated to `limit`. -/
def get_recent_activity (bets : List Bet) (subs : List Subscription)
    (user_id : ℕ) (now : ℤ) (limit : ℕ) : List ActivityItem :=
  ((recentActivityDated bets subs user_id now limit).map stripDate).take limit

/-- A `User` record as the dashboard service reads it; the two optional
fields model the source's `hasattr` probing for `followers` /
`followers_count`. -/
structure User where
  id : ℕ
  followers : Option (List ℕ)
  followers_count : Option ℕ
deriving DecidableEq, Repr

/-- The record store and external collaborator of `get_user_metrics`:
users, bets, and `BetService.get_clutch_picks_count` (an opaque external
counting function over an owner and an optional window). -/
structure Env where
  users : List User
  bets : List Bet
  clutchCount : ℕ → Option ℤ → Option ℤ → ℕ

/-- The metrics snapshot returned by `get_user_metrics`. -/
structure Metrics where
  winRate : ℚ
  winRateTrend : ℚ
  totalProfit : ℚ
  profitTrend : ℚ
  clutchPicks : ℕ
  clutchPicksTrend : ℚ
  followers : ℕ
  followersTrend : ℚ
deriving DecidableEq, Repr

/-- Python's `round(x, 1)` on exact rationals. -/
def round1 (x : ℚ) : ℚ := (round (x * 10) : ℚ) / 10

/-- Embeds `User.query.get(user_id)`: primary-key lookup. -/
def getUser (env : Env) (user_id : ℕ) : Option User :=
  env.users.find? (fun u => u.id == user_id)

/-- Embeds `DashboardService._get_followers_count`: `followers` collection when
present, else `followers_count`, else 0. -/
def get_followers_count (env : Env) (user_id : ℕ) : ℕ :=
  match getUser env user_id with
  | none => 0
  | some u =>
      match u.followers with
      | some fs => fs.length
      | none =>
          match u.followers_count with
          | some c => c
          | none => 0

/-- Embeds `DashboardService._calculate_followers_trend`: an acknowledged stub,
always 0. -/
def calculate_followers_trend (_env : Env) (_user_id : ℕ) : ℚ := 0

/-- Embeds `DashboardService.get_user_metrics`: `none` when the owner does not
exist, otherwise the full snapshot (win rate and profit with their 30-vs-60
day trends, clutch picks via the external collaborator, followers). -/
def get_user_metrics (env : Env) (user_id : ℕ) (now : ℤ) : Option Metrics :=
  match getUser env user_id with
  | none => none
  | some _ =>
      let all_bets := env.bets.filter (fun b => b.user_id == user_id)
      let settled_bets := all_bets.filter (fun b => b.status != "pending")
      let win_rate := calculate_win_rate settled_bets
      let win_rate_trend := calculate_trend_metric
        (fun uid sd ed => calculate_period_win_rate env.bets uid sd ed)
        user_id now 30 60
      let totalProft := (settled_bets.filterMap (fun b => b.profit)).sum
      let profit_trend := calculate_trend_metric
        (fun uid sd ed => calculate_period_profit env.bets uid sd ed)
        user_id now 30 60
      let clutch_picks := env.clutchCount user_id none none
      let one_month_ago := now - 30 * daySecs
      let two_months_ago := now - 60 * daySecs
      let current_clutch_picks := env.clutchCount user_id (some one_month_ago) none
      let previous_clutch_picks :=
        env.clutchCount user_id (some two_months_ago) (some one_month_ago)
      let clutch_picks_trend := calculate_percentage_change
        (current_clutch_picks : ℚ) (previous_clutch_picks : ℚ)
      let followers_count := get_followers_count env user_id
      let followers_trend := calculate_followers_trend env user_id
      some
        { winRate := round1 win_rate
          winRateTrend := round1 win_rate_trend
          totalProfit := round2 totalProft
          profitTrend := round1 profit_trend
          clutchPicks := clutch_picks
          clutchPicksTrend := round1 clutch_picks_trend
          followers := followers_count
          followersTrend := round1 followers_trend }

/-- A marketplace `Pick` record as `purchase_pick` reads and mutates it. -/
structure Pick where
  id : ℕ
  required_tier : ℕ
  sales : ℕ
  active : Bool
deriving DecidableEq, Repr

/-- A marketplace subscription record (`tier`, `active`). -/
structure MSubscription where
  user_id : ℕ
  tier : ℕ
  active : Bool
deriving DecidableEq, Repr

/-- The committed database state `purchase_pick` runs against:
`purchased_picks` is the user-to-pick association list the source appends
to. -/
structure MStore where
  users : List ℕ
  picks : List Pick
  subscriptions : List MSubscription
  purchased_picks : List (ℕ × ℕ)
deriving DecidableEq, Repr

/-- The dict returned by `purchase_pick` (the success dict also carries
`pick.to_dict()`, carried here as the updated pick). -/
structure PurchaseResult where
  success : Bool
  message : String
  pick : Option Pick
deriving DecidableEq, Repr

/-- The steps of the try body of `purchase_pick` after the two lookups; an
exception oracle names the step (if any) that raises. -/
inductive PStep where
  | querySubscription
  | appendPick
  | bumpSales
  | commit
deriving DecidableEq, Repr

/-- Embeds `MarketplaceService.purchase_pick`, with the possibility of a runtime
exception inside the `try` body made explicit by the oracle `raiseAt`:
`none` means every step succeeds; `some step` means that step raises.  The
`except` branch rolls the session back, so the committed store is returned
unchanged; the subscription/tier check of the source is a no-op (`pass`),
reproduced as such. -/
def purchase_pick (store : MStore) (user_id pick_id : ℕ)
    (raiseAt : Option PStep) : MStore × PurchaseResult :=
  match store.users.find? (fun u => u == user_id),
      store.picks.find? (fun p => p.id == pick_id) with
  | some _, some pick =>
      match raiseAt with
      | some _ => (store, ⟨false, "Error processing purchase", none⟩)
      | none =>
          let _subscription := store.subscriptions.find?
            (fun s => s.user_id == user_id && s.active)
          let pickP := { pick with sales := pick.sales + 1 }
          let storeP := { store with
            purchased_picks := store.purchased_picks ++ [(user_id, pick_id)]
            picks := store.picks.map
              (fun p => if p.id == pick_id then pickP else p) }
          (storeP, ⟨true, "Pick purchased successfully", some pickP⟩)
  | _, _ => (store, ⟨false, "User or pick not found", none⟩)

end Vaultapps

namespace Vaultapps

/-- C1: `percentageChange` returns `0` when `previous == 0` (even for
nonzero `current`), and otherwise `100 * (current - previous) / |previous|`. -/
theorem percentage_change_spec (current previous : ℚ) :
    calculate_percentage_change current previous =
      if previous = 0 then 0
      else 100 * (current - previous) / |previous| := by
  unfold calculate_percentage_change
  by_cases h : previous = 0
  · simp [h]
  · simp only [h, if_false]
    ring

/-- C7: `winRate` is `0` on the empty list, equals
`100 * |wins| / |bets|` on a non-empty list, and always lies in `[0, 100]`. -/
theorem win_rate_spec (B : List Bet) :
    calculate_win_rate [] = 0 ∧
    (B ≠ [] →
      calculate_win_rate B =
        100 * ((B.filter (fun b => b.status == "win")).length : ℚ)
          / (B.length : ℚ)) ∧
    0 ≤ calculate_win_rate B ∧ calculate_win_rate B ≤ 100 := by
  refine ⟨by simp [calculate_win_rate], ?_, ?_, ?_⟩
  · intro hne
    unfold calculate_win_rate
    simp only [List.isEmpty_iff, hne, if_false]
    ring
  · unfold calculate_win_rate
    by_cases h : B.isEmpty
    · simp [h]
    · simp only [h, if_false]
      positivity
  · unfold calculate_win_rate
    by_cases h : B.isEmpty
    · simp [h]
    · simp only [h, if_false]
      have hlen : 0 < (B.length : ℚ) := by
        have : B ≠ [] := by simpa [List.isEmpty_iff] using h
        exact_mod_cast Nat.pos_of_ne_zero (by simpa [List.length_eq_zero] using this)
      have hle : ((B.filter (fun b => b.status == "win")).length : ℚ) ≤
          (B.length : ℚ) := by
        exact_mod_cast List.length_filter_le _ B
      have hdiv : ((B.filter (fun b => b.status == "win")).length : ℚ) /
          (B.length : ℚ) ≤ 1 := by
        rw [div_le_one hlen]; exact hle
      calc ((B.filter (fun b => b.status == "win")).length : ℚ) /
            (B.length : ℚ) * 100 ≤ 1 * 100 := by
              exact mul_le_mul_of_nonneg_right hdiv (by norm_num)
        _ = 100 := by norm_num

/-- Witness for C7 at a concrete non-empty list. -/
theorem win_rate_spec_witness :
    ([⟨1, 0, "win", 5, some 3, none⟩] : List Bet) ≠ [] ∧
    calculate_win_rate [⟨1, 0, "win", 5, some 3, none⟩] =
      100 * (([⟨1, 0, "win", 5, some 3, none⟩] : List Bet).filter
        (fun b => b.status == "win")).length /
        (([⟨1, 0, "win", 5, some 3, none⟩] : List Bet).length : ℚ) :=
  ⟨by decide, (win_rate_spec [⟨1, 0, "win", 5, some 3, none⟩]).2.1 (by decide)⟩

/-- C2: a bet carrying no profit value is skipped by the period-profit sum
and by the total-profit sum of `get_user_metrics`: prepending such a bet to any
bet list leaves both results unchanged. -/
theorem profit_skips_profitless (bets : List Bet) (b : Bet)
    (hb : b.profit = none) :
    (∀ (user_id : ℕ) (start_date : ℤ) (end_date : Option ℤ),
      calculate_period_profit (b :: bets) user_id start_date end_date =
        calculate_period_profit bets user_id start_date end_date) ∧
    (∀ user_id : ℕ,
      total_profit (b :: bets) user_id = total_profit bets user_id) := by
  constructor
  · intro user_id start_date end_date
    unfold calculate_period_profit periodQuery
    cases end_date with
    | none =>
        simp only
        by_cases h : (b.user_id == user_id && start_date ≤ b.created_at &&
            b.status != "pending") = true
        · simp [List.filter_cons, h, hb]
        · simp [List.filter_cons, h]
    | some e =>
        simp only
        by_cases h : (b.user_id == user_id && start_date ≤ b.created_at &&
            b.status != "pending") = true
        · by_cases h2 : (b.created_at < e : Bool) = true
          · simp [List.filter_cons, h, h2, hb]
          · simp [List.filter_cons, h, h2]
        · simp [List.filter_cons, h]
  · intro user_id
    unfold total_profit
    by_cases h : (b.user_id == user_id) = true
    · by_cases h2 : (b.status != "pending") = true
      · simp [List.filter_cons, h, h2, hb]
      · simp [List.filter_cons, h, h2]
    · simp [List.filter_cons, h]

/-- Witness for C2 at a concrete profitless pending bet. -/
theorem profit_skips_profitless_witness :
    (Bet.mk 1 0 "pending" 5 none none).profit = none ∧
    calculate_period_profit
        [Bet.mk 1 0 "pending" 5 none none,
         Bet.mk 1 10 "win" 5 (some 20) none] 1 0 none =
      calculate_period_profit [Bet.mk 1 10 "win" 5 (some 20) none] 1 0 none :=
  ⟨rfl,
    (profit_skips_profitless [Bet.mk 1 10 "win" 5 (some 20) none]
      (Bet.mk 1 0 "pending" 5 none none) rfl).1 1 0 none⟩

end Vaultapps

namespace Vaultapps

/-- C3: the trend of a metric compares the metric on the window
`[now - currentDays, now)` (unbounded end) against the metric on
`[now - previousDays, now - currentDays)` (end bounded at exactly
`now - currentDays`) via `percentageChange`; with current-30-day profit 100
and prior-30-day profit 50 the trend is 100. -/
theorem trend_metric_spec :
    (∀ (f : ℕ → ℤ → Option ℤ → ℚ) (user_id : ℕ) (now : ℤ)
        (currentDays previousDays : ℕ), currentDays < previousDays →
      calculate_trend_metric f user_id now currentDays previousDays =
        calculate_percentage_change
          (f user_id (now - currentDays * daySecs) none)
          (f user_id (now - previousDays * daySecs)
            (some (now - currentDays * daySecs)))) ∧
    calculate_trend_metric
      (fun uid sd ed => calculate_period_profit trendDemoBets uid sd ed)
      1 (100 * 86400) 30 60 = 100 := by
  constructor
  · intro f user_id now currentDays previousDays _
    rfl
  · norm_num [calculate_trend_metric, calculate_period_profit, periodQuery,
      trendDemoBets, daySecs, calculate_percentage_change, List.filter,
      List.filterMap]

/-- Witness for the window equation of C3 at concrete inputs. -/
theorem trend_metric_spec_witness :
    30 < 60 ∧
    calculate_trend_metric
        (fun uid sd ed => calculate_period_profit trendDemoBets uid sd ed)
        1 (100 * 86400) 30 60 =
      calculate_percentage_change
        (calculate_period_profit trendDemoBets 1 (100 * 86400 - 30 * daySecs)
          none)
        (calculate_period_profit trendDemoBets 1 (100 * 86400 - 60 * daySecs)
          (some (100 * 86400 - 30 * daySecs))) :=
  ⟨by decide,
    trend_metric_spec.1
      (fun uid sd ed => calculate_period_profit trendDemoBets uid sd ed)
      1 (100 * 86400) 30 60 (by decide)⟩

/-- C8: for a nonnegative elapsed time the relative label is "(whole days)d
ago" when at least one day has passed, else "(whole hours)h ago" when at
least one hour, else "(whole minutes)m ago" when at least one minute, else
"just now". -/
theorem relative_time_spec (elapsed : ℤ) (h : 0 ≤ elapsed) :
    (86400 ≤ elapsed →
      format_relative_time elapsed =
        toString (elapsed.fdiv 86400) ++ "d ago") ∧
    (3600 ≤ elapsed → elapsed < 86400 →
      format_relative_time elapsed =
        toString (elapsed.fdiv 3600) ++ "h ago") ∧
    (60 ≤ elapsed → elapsed < 3600 →
      format_relative_time elapsed =
        toString (elapsed.fdiv 60) ++ "m ago") ∧
    (elapsed < 60 → format_relative_time elapsed = "just now") := by
  refine ⟨?_, ?_, ?_, ?_⟩
  · intro hday
    have hpos : 0 < elapsed.fdiv 86400 := by
      rw [Int.fdiv_eq_ediv _ (by norm_num)]
      have := (Int.le_ediv_iff_mul_le (a := 1) (b := elapsed)
        (c := 86400) (by norm_num)).mpr (by linarith)
      linarith
    unfold format_relative_time
    simp only [hpos, if_true]
  · intro hhour hlt
    have hdays : elapsed.fdiv 86400 = 0 := by
      rw [Int.fdiv_eq_ediv _ (by norm_num)]
      exact Int.ediv_eq_zero_of_lt h hlt
    have hsec : elapsed.fmod 86400 = elapsed := by
      rw [Int.fmod_eq_emod _ (by norm_num)]
      exact Int.emod_eq_of_lt h hlt
    unfold format_relative_time
    simp only [hdays, hsec, lt_irrefl, if_false, hhour, if_true]
  · intro hmin hlt
    have hlt' : elapsed < 86400 := by linarith
    have hdays : elapsed.fdiv 86400 = 0 := by
      rw [Int.fdiv_eq_ediv _ (by norm_num)]
      exact Int.ediv_eq_zero_of_lt h hlt'
    have hsec : elapsed.fmod 86400 = elapsed := by
      rw [Int.fmod_eq_emod _ (by norm_num)]
      exact Int.emod_eq_of_lt h hlt'
    have hno : ¬ (3600 ≤ elapsed) := by linarith
    unfold format_relative_time
    simp only [hdays, hsec, lt_irrefl, if_false, hno, hmin, if_true]
  · intro hlt
    have hlt' : elapsed < 86400 := by linarith
    have hdays : elapsed.fdiv 86400 = 0 := by
      rw [Int.fdiv_eq_ediv _ (by norm_num)]
      exact Int.ediv_eq_zero_of_lt h hlt'
    have hsec : elapsed.fmod 86400 = elapsed := by
      rw [Int.fmod_eq_emod _ (by norm_num)]
      exact Int.emod_eq_of_lt h hlt'
    have hno : ¬ (3600 ≤ elapsed) := by linarith
    have hno' : ¬ (60 ≤ elapsed) := by linarith
    unfold format_relative_time
    simp only [hdays, hsec, lt_irrefl, if_false, hno, hno']

/-- Witness for C8 at elapsed times in each band. -/
theorem relative_time_spec_witness :
    0 ≤ (90000 : ℤ) ∧
    format_relative_time 90000 = toString ((90000 : ℤ).fdiv 86400) ++ "d ago" ∧
    format_relative_time 7200 = toString ((7200 : ℤ).fdiv 3600) ++ "h ago" ∧
    format_relative_time 150 = toString ((150 : ℤ).fdiv 60) ++ "m ago" ∧
    format_relative_time 59 = "just now" :=
  ⟨by decide,
    (relative_time_spec 90000 (by decide)).1 (by decide),
    (relative_time_spec 7200 (by decide)).2.1 (by decide) (by decide),
    (relative_time_spec 150 (by decide)).2.2.1 (by decide) (by decide),
    (relative_time_spec 59 (by decide)).2.2.2 (by decide)⟩

end Vaultapps

namespace Vaultapps

theorem listMinD_le_base (l : List ℤ) (d : ℤ) : listMinD l d ≤ d := by
  induction l with
  | nil => simp [listMinD]
  | cons a l ih =>
      simp only [listMinD, List.foldr_cons] at *
      exact le_trans (min_le_right _ _) ih

theorem listMinD_le_mem (l : List ℤ) (d : ℤ) : ∀ x ∈ l, listMinD l d ≤ x := by
  induction l with
  | nil => simp
  | cons a l ih =>
      intro x hx
      simp only [listMinD, List.foldr_cons]
      rcases List.mem_cons.mp hx with h | h
      · exact h ▸ min_le_left _ _
      · exact le_trans (min_le_right _ _) (ih x h)

theorem listMinD_mem (l : List ℤ) (d : ℤ) :
    listMinD l d = d ∨ listMinD l d ∈ l := by
  induction l with
  | nil => left; rfl
  | cons a l ih =>
      simp only [listMinD, List.foldr_cons] at *
      rcases le_total a (List.foldr min d l) with h | h
      · right; rw [min_eq_left h]; exact List.mem_cons_self a l
      · rcases ih with h2 | h2
        · left; rw [min_eq_right h]; exact h2
        · right; rw [min_eq_right h]; exact List.mem_cons_of_mem _ h2

theorem le_listMaxD_base (l : List ℤ) (d : ℤ) : d ≤ listMaxD l d := by
  induction l with
  | nil => simp [listMaxD]
  | cons a l ih =>
      simp only [listMaxD, List.foldr_cons] at *
      exact le_trans ih (le_max_right _ _)

theorem le_listMaxD_mem (l : List ℤ) (d : ℤ) : ∀ x ∈ l, x ≤ listMaxD l d := by
  induction l with
  | nil => simp
  | cons a l ih =>
      intro x hx
      simp only [listMaxD, List.foldr_cons]
      rcases List.mem_cons.mp hx with h | h
      · exact h ▸ le_max_left _ _
      · exact le_trans (ih x h) (le_max_right _ _)

theorem listMaxD_mem (l : List ℤ) (d : ℤ) :
    listMaxD l d = d ∨ listMaxD l d ∈ l := by
  induction l with
  | nil => left; rfl
  | cons a l ih =>
      simp only [listMaxD, List.foldr_cons] at *
      rcases le_total a (List.foldr max d l) with h | h
      · rcases ih with h2 | h2
        · left; rw [max_eq_right h]; exact h2
        · right; rw [max_eq_right h]; exact List.mem_cons_of_mem _ h2
      · right; rw [max_eq_left h]; exact List.mem_cons_self a l

theorem minDate_le (data : List (ℤ × ℚ)) :
    ∀ x ∈ data.map Prod.fst, minDate data ≤ x := by
  cases data with
  | nil => simp
  | cons d ds =>
      intro x hx
      simp only [List.map_cons, List.mem_cons] at hx
      rcases hx with h | h
      · exact h ▸ listMinD_le_base _ _
      · exact listMinD_le_mem _ _ x h

theorem minDate_mem (data : List (ℤ × ℚ)) (h : data ≠ []) :
    minDate data ∈ data.map Prod.fst := by
  cases data with
  | nil => exact absurd rfl h
  | cons d ds =>
      rcases listMinD_mem (ds.map Prod.fst) d.1 with h2 | h2
      · simp only [minDate, List.map_cons, List.mem_cons]; left; exact h2
      · simp only [minDate, List.map_cons, List.mem_cons]; right; exact h2

theorem le_maxDate (data : List (ℤ × ℚ)) :
    ∀ x ∈ data.map Prod.fst, x ≤ maxDate data := by
  cases data with
  | nil => simp
  | cons d ds =>
      intro x hx
      simp only [List.map_cons, List.mem_cons] at hx
      rcases hx with h | h
      · exact h ▸ le_listMaxD_base _ _
      · exact le_listMaxD_mem _ _ x h

theorem maxDate_mem (data : List (ℤ × ℚ)) (h : data ≠ []) :
    maxDate data ∈ data.map Prod.fst := by
  cases data with
  | nil => exact absurd rfl h
  | cons d ds =>
      rcases listMaxD_mem (ds.map Prod.fst) d.1 with h2 | h2
      · simp only [maxDate, List.map_cons, List.mem_cons]; left; exact h2
      · simp only [maxDate, List.map_cons, List.mem_cons]; right; exact h2

theorem minDate_le_maxDate (data : List (ℤ × ℚ)) (h : data ≠ []) :
    minDate data ≤ maxDate data :=
  le_maxDate data _ (minDate_mem data h)

theorem binOrigin_le_minDate (data : List (ℤ × ℚ)) :
    binOrigin data ≤ minDate data := by
  unfold binOrigin
  rw [Int.fdiv_eq_ediv _ (by norm_num), mul_comm]
  exact Int.ediv_mul_le _ (by norm_num)

theorem freqDays_pos (days : ℕ) : 0 < freqDays days := by
  unfold freqDays
  split
  · norm_num
  · split <;> norm_num

theorem cumsum_length (acc : ℚ) (l : List (ℤ × ℚ)) :
    (cumsum acc l).length = l.length := by
  induction l generalizing acc with
  | nil => rfl
  | cons p ps ih => simp [cumsum, ih]

theorem cumsum_getElem (l : List (ℤ × ℚ)) (acc : ℚ) (i : ℕ)
    (hi : i < l.length) (hi2 : i < (cumsum acc l).length) :
    (cumsum acc l)[i] =
      (l[i].1, acc + ((l.take (i + 1)).map Prod.snd).sum) := by
  induction l generalizing acc i with
  | nil => simp at hi
  | cons p ps ih =>
      cases i with
      | zero => simp [cumsum]
      | succ j =>
          have hj : j < ps.length := by simpa using hi
          have hj2 : j < (cumsum (acc + p.2) ps).length := by
            rw [cumsum_length]; exact hj
          simp only [cumsum, List.getElem_cons_succ, ih (acc + p.2) j hj hj2,
            List.take_succ_cons, List.map_cons, List.sum_cons]
          rw [add_assoc]

end Vaultapps

namespace Vaultapps

theorem resampleSums_length (width : ℤ) (data : List (ℤ × ℚ))
    (h : data ≠ []) :
    (resampleSums width data).length = numBuckets width data := by
  unfold resampleSums
  simp [List.isEmpty_iff, h]

theorem resampleSums_getElem (width : ℤ) (data : List (ℤ × ℚ))
    (h : data ≠ []) (i : ℕ) (hi : i < (resampleSums width data).length) :
    (resampleSums width data)[i] =
      (binOrigin data + (i : ℤ) * width, bucketSum width data i) := by
  have hi' : i < numBuckets width data := by
    rw [← resampleSums_length width data h]; exact hi
  unfold resampleSums
  simp [List.isEmpty_iff, h]

theorem resampleSums_take (width : ℤ) (data : List (ℤ × ℚ))
    (h : data ≠ []) (i : ℕ) (hij : i ≤ numBuckets width data) :
    (((resampleSums width data).take i).map Prod.snd) =
      (List.range i).map (bucketSum width data) := by
  unfold resampleSums
  rw [if_neg (by simpa [List.isEmpty_iff] using h)]
  rw [← List.map_take, List.take_range, Nat.min_eq_left hij, List.map_map]
  rfl

theorem get_performance_history_eq (bets : List Bet) (user_id : ℕ)
    (now : ℤ) (days : ℕ) (h : betData bets user_id now days ≠ []) :
    get_performance_history bets user_id now days =
      (cumsum 0 (resampleSums ((freqDays days : ℤ) * daySecs)
        (betData bets user_id now days))).map
        (fun p => (p.1, round2 p.2)) := by
  unfold get_performance_history
  simp [List.isEmpty_iff, h]

theorem numBuckets_cast (width : ℤ) (data : List (ℤ × ℚ))
    (h : data ≠ []) (hw : 0 < width) :
    (numBuckets width data : ℤ) =
      (maxDate data - binOrigin data) / width + 1 := by
  have h0 : 0 ≤ maxDate data - binOrigin data := by
    have h1 := binOrigin_le_minDate data
    have h2 := minDate_le_maxDate data h
    linarith
  have h3 : 0 ≤ (maxDate data - binOrigin data) / width :=
    Int.ediv_nonneg h0 (le_of_lt hw)
  unfold numBuckets
  rw [Int.fdiv_eq_ediv _ (le_of_lt hw)]
  push_cast [Int.toNat_of_nonneg h3]
  ring

theorem maxDate_lt_end (width : ℤ) (data : List (ℤ × ℚ))
    (h : data ≠ []) (hw : 0 < width) :
    maxDate data < binOrigin data + (numBuckets width data : ℤ) * width := by
  have h1 := Int.lt_ediv_add_one_mul_self (maxDate data - binOrigin data) hw
  rw [numBuckets_cast width data h hw]
  linarith

theorem last_bucket_le_maxDate (width : ℤ) (data : List (ℤ × ℚ))
    (h : data ≠ []) (hw : 0 < width) :
    binOrigin data + ((numBuckets width data - 1 : ℕ) : ℤ) * width ≤
      maxDate data := by
  have h0 : 0 ≤ maxDate data - binOrigin data := by
    have h1 := binOrigin_le_minDate data
    have h2 := minDate_le_maxDate data h
    linarith
  have h3 : 0 ≤ (maxDate data - binOrigin data) / width :=
    Int.ediv_nonneg h0 (le_of_lt hw)
  have h4 : ((numBuckets width data - 1 : ℕ) : ℤ) =
      (maxDate data - binOrigin data) / width := by
    unfold numBuckets
    rw [Int.fdiv_eq_ediv _ (le_of_lt hw)]
    simp [Int.toNat_of_nonneg h3]
  have h5 := Int.ediv_mul_le (maxDate data - binOrigin data) (ne_of_gt hw)
  rw [h4]
  linarith

theorem freq_width_pos (days : ℕ) : 0 < (freqDays days : ℤ) * daySecs := by
  have h1 : (0 : ℤ) < (freqDays days : ℤ) := by exact_mod_cast freqDays_pos days
  have h2 : (0 : ℤ) < daySecs := by norm_num [daySecs]
  positivity

/-- C4: for a non-empty frame, `get_performance_history` chooses a bin
width of 1 day for `days ≤ 30`, 7 days for `30 < days ≤ 90` and 15 days
for `days > 90`, and emits one row per contiguous fixed-width bin from the
earliest timestamp's day start through the bin holding the latest
timestamp, in chronological order; a bin with no bets still appears,
contributing its (zero) sum to the running total. -/
theorem performance_history_buckets (bets : List Bet) (user_id : ℕ)
    (now : ℤ) (days : ℕ) (h : betData bets user_id now days ≠ []) :
    ((days ≤ 30 → freqDays days = 1) ∧
     (30 < days → days ≤ 90 → freqDays days = 7) ∧
     (90 < days → freqDays days = 15)) ∧
    (get_performance_history bets user_id now days).length =
      numBuckets ((freqDays days : ℤ) * daySecs)
        (betData bets user_id now days) ∧
    (∀ (i : ℕ) (hi : i < (get_performance_history bets user_id now days).length),
      (get_performance_history bets user_id now days).get ⟨i, hi⟩ =
        (binOrigin (betData bets user_id now days) +
           (i : ℤ) * ((freqDays days : ℤ) * daySecs),
         round2 (((List.range (i + 1)).map
           (bucketSum ((freqDays days : ℤ) * daySecs)
             (betData bets user_id now days))).sum))) ∧
    binOrigin (betData bets user_id now days) ≤
      minDate (betData bets user_id now days) ∧
    binOrigin (betData bets user_id now days) +
        ((numBuckets ((freqDays days : ℤ) * daySecs)
            (betData bets user_id now days) - 1 : ℕ) : ℤ) *
          ((freqDays days : ℤ) * daySecs) ≤
      maxDate (betData bets user_id now days) ∧
    maxDate (betData bets user_id now days) <
      binOrigin (betData bets user_id now days) +
        (numBuckets ((freqDays days : ℤ) * daySecs)
            (betData bets user_id now days) : ℤ) *
          ((freqDays days : ℤ) * daySecs) := by
  have hw := freq_width_pos days
  refine ⟨⟨?_, ?_, ?_⟩, ?_, ?_, binOrigin_le_minDate _,
    last_bucket_le_maxDate _ _ h hw, maxDate_lt_end _ _ h hw⟩
  · intro h1; unfold freqDays; rw [if_pos h1]
  · intro h1 h2; unfold freqDays
    rw [if_neg (by omega), if_pos h2]
  · intro h1; unfold freqDays
    rw [if_neg (by omega), if_neg (by omega)]
  · rw [get_performance_history_eq bets user_id now days h,
      List.length_map, cumsum_length,
      resampleSums_length _ _ h]
  · intro i hi
    have hlen : (get_performance_history bets user_id now days).length =
        numBuckets ((freqDays days : ℤ) * daySecs)
          (betData bets user_id now days) := by
      rw [get_performance_history_eq bets user_id now days h,
        List.length_map, cumsum_length, resampleSums_length _ _ h]
    have hiN : i < numBuckets ((freqDays days : ℤ) * daySecs)
        (betData bets user_id now days) := hlen ▸ hi
    have hirs : i < (resampleSums ((freqDays days : ℤ) * daySecs)
        (betData bets user_id now days)).length := by
      rw [resampleSums_length _ _ h]; exact hiN
    have hics : i < (cumsum 0 (resampleSums ((freqDays days : ℤ) * daySecs)
        (betData bets user_id now days))).length := by
      rw [cumsum_length]; exact hirs
    rw [List.get_eq_getElem]
    have hre := get_performance_history_eq bets user_id now days h
    rw [List.getElem_of_eq hre, List.getElem_map,
      cumsum_getElem _ _ i hirs hics,
      resampleSums_getElem _ _ h i hirs,
      resampleSums_take _ _ h (i + 1) (by omega)]
    simp

end Vaultapps

namespace Vaultapps

theorem minDate_perm {data dataP : List (ℤ × ℚ)} (hp : data.Perm dataP) :
    minDate data = minDate dataP := by
  by_cases hd : data = []
  · subst hd
    rw [hp.symm.eq_nil]
  · have hdP : dataP ≠ [] := fun he => hd (he ▸ hp).eq_nil
    apply le_antisymm
    · exact minDate_le data _ ((hp.map Prod.fst).mem_iff.mpr (minDate_mem dataP hdP))
    · exact minDate_le dataP _ ((hp.map Prod.fst).mem_iff.mp (minDate_mem data hd))

theorem maxDate_perm {data dataP : List (ℤ × ℚ)} (hp : data.Perm dataP) :
    maxDate data = maxDate dataP := by
  by_cases hd : data = []
  · subst hd
    rw [hp.symm.eq_nil]
  · have hdP : dataP ≠ [] := fun he => hd (he ▸ hp).eq_nil
    apply le_antisymm
    · exact le_maxDate dataP _ ((hp.map Prod.fst).mem_iff.mp (maxDate_mem data hd))
    · exact le_maxDate data _ ((hp.map Prod.fst).mem_iff.mpr (maxDate_mem dataP hdP))

theorem resampleSums_perm (width : ℤ) {data dataP : List (ℤ × ℚ)}
    (hp : data.Perm dataP) :
    resampleSums width data = resampleSums width dataP := by
  by_cases hd : data = []
  · subst hd
    rw [hp.symm.eq_nil]
  · have hdP : dataP ≠ [] := fun he => hd (he ▸ hp).eq_nil
    have horig : binOrigin data = binOrigin dataP := by
      unfold binOrigin; rw [minDate_perm hp]
    have hnum : numBuckets width data = numBuckets width dataP := by
      unfold numBuckets; rw [maxDate_perm hp, horig]
    have hbs : ∀ i : ℕ, bucketSum width data i = bucketSum width dataP i := by
      intro i
      unfold bucketSum
      rw [horig]
      exact ((hp.filter _).map Prod.snd).sum_eq
    unfold resampleSums
    rw [if_neg (by simpa [List.isEmpty_iff] using hd),
      if_neg (by simpa [List.isEmpty_iff] using hdP), hnum]
    apply List.map_congr_left
    intro i _
    rw [horig, hbs i]

/-- C5: the resampling pipeline of `get_performance_history` is invariant
under permutations of its input (the internal sort is total): permuting
the bet list does not change the output sequence. -/
theorem performance_history_perm (bets betsP : List Bet) (user_id : ℕ)
    (now : ℤ) (days : ℕ) (hp : bets.Perm betsP) :
    get_performance_history bets user_id now days =
      get_performance_history betsP user_id now days := by
  have hdata : (betData bets user_id now days).Perm
      (betData betsP user_id now days) := by
    unfold betData
    exact (hp.filter _).filterMap _
  by_cases hd : betData bets user_id now days = []
  · have hdP : betData betsP user_id now days = [] :=
      ((hd ▸ hdata : ([] : List (ℤ × ℚ)).Perm _).symm).eq_nil
    unfold get_performance_history
    simp [hd, hdP]
  · have hdP : betData betsP user_id now days ≠ [] :=
      fun he => hd (he ▸ hdata).eq_nil
    rw [get_performance_history_eq _ _ _ _ hd,
      get_performance_history_eq _ _ _ _ hdP,
      resampleSums_perm _ hdata]

/-- Witness for C5: swapping two concrete bets leaves the output unchanged. -/
theorem performance_history_perm_witness :
    ([⟨1, 95 * 86400, "win", 10, some 20, none⟩,
      ⟨1, 97 * 86400, "loss", 10, some (-5), none⟩] : List Bet).Perm
      [⟨1, 97 * 86400, "loss", 10, some (-5), none⟩,
       ⟨1, 95 * 86400, "win", 10, some 20, none⟩] ∧
    get_performance_history
        [⟨1, 95 * 86400, "win", 10, some 20, none⟩,
         ⟨1, 97 * 86400, "loss", 10, some (-5), none⟩] 1 (100 * 86400) 20 =
      get_performance_history
        [⟨1, 97 * 86400, "loss", 10, some (-5), none⟩,
         ⟨1, 95 * 86400, "win", 10, some 20, none⟩] 1 (100 * 86400) 20 := by
  have hp : ([⟨1, 95 * 86400, "win", 10, some 20, none⟩,
      ⟨1, 97 * 86400, "loss", 10, some (-5), none⟩] : List Bet).Perm
      [⟨1, 97 * 86400, "loss", 10, some (-5), none⟩,
       ⟨1, 95 * 86400, "win", 10, some 20, none⟩] :=
    List.Perm.swap _ _ []
  exact ⟨hp, performance_history_perm _ _ 1 (100 * 86400) 20 hp⟩

end Vaultapps

namespace Vaultapps

/-- Witness for C4 at a concrete two-bet, 20-day history. -/
theorem performance_history_buckets_witness :
    betData perfDemoBets 1 (100 * 86400) 20 ≠ [] ∧
    (((20 ≤ 30 → freqDays 20 = 1) ∧
      (30 < 20 → 20 ≤ 90 → freqDays 20 = 7) ∧
      (90 < 20 → freqDays 20 = 15)) ∧
     (get_performance_history perfDemoBets 1 (100 * 86400) 20).length =
       numBuckets ((freqDays 20 : ℤ) * daySecs)
         (betData perfDemoBets 1 (100 * 86400) 20) ∧
     (∀ (i : ℕ)
        (hi : i < (get_performance_history perfDemoBets 1 (100 * 86400) 20).length),
       (get_performance_history perfDemoBets 1 (100 * 86400) 20).get ⟨i, hi⟩ =
         (binOrigin (betData perfDemoBets 1 (100 * 86400) 20) +
            (i : ℤ) * ((freqDays 20 : ℤ) * daySecs),
          round2 (((List.range (i + 1)).map
            (bucketSum ((freqDays 20 : ℤ) * daySecs)
              (betData perfDemoBets 1 (100 * 86400) 20))).sum))) ∧
     binOrigin (betData perfDemoBets 1 (100 * 86400) 20) ≤
       minDate (betData perfDemoBets 1 (100 * 86400) 20) ∧
     binOrigin (betData perfDemoBets 1 (100 * 86400) 20) +
         ((numBuckets ((freqDays 20 : ℤ) * daySecs)
             (betData perfDemoBets 1 (100 * 86400) 20) - 1 : ℕ) : ℤ) *
           ((freqDays 20 : ℤ) * daySecs) ≤
       maxDate (betData perfDemoBets 1 (100 * 86400) 20) ∧
     maxDate (betData perfDemoBets 1 (100 * 86400) 20) <
       binOrigin (betData perfDemoBets 1 (100 * 86400) 20) +
         (numBuckets ((freqDays 20 : ℤ) * daySecs)
             (betData perfDemoBets 1 (100 * 86400) 20) : ℤ) *
           ((freqDays 20 : ℤ) * daySecs)) := by
  have hne : betData perfDemoBets 1 (100 * 86400) 20 ≠ [] := by decide
  exact ⟨hne, performance_history_buckets perfDemoBets 1 (100 * 86400) 20 hne⟩

end Vaultapps

namespace Vaultapps

/-- C6: the activity feed is the merged bet/subscription events sorted
descending by original timestamp; the returned items are those dated
items, stripped of the raw timestamp, truncated to `limit`; on the
concrete scenario (win bet at 10:00, purchase at 09:00, limit 1, now
10:30) the output is only the win event with a relative-time label. -/
theorem recent_activity_spec (bets : List Bet) (subs : List Subscription)
    (user_id : ℕ) (now : ℤ) (limit : ℕ) :
    List.Pairwise (fun a b : ActivityDated => b.date ≤ a.date)
      (recentActivityDated bets subs user_id now limit) ∧
    get_recent_activity bets subs user_id now limit =
      ((recentActivityDated bets subs user_id now limit).map
        stripDate).take limit ∧
    (get_recent_activity bets subs user_id now limit).length ≤ limit ∧
    get_recent_activity [⟨1, 36000, "win", 10, some 50, some "Game A"⟩]
        [⟨1, "Premium", 32400⟩] 1 37800 1 =
      [⟨"win", "Won $10 on Game A ($50)", "30m ago"⟩] := by
  refine ⟨?_, rfl, ?_, ?_⟩
  · exact @List.sorted_insertionSort ActivityDated
      (fun a b => b.date ≤ a.date) inferInstance
      ⟨fun a b => le_total b.date a.date⟩
      ⟨fun a b c h1 h2 => le_trans h2 h1⟩ _
  · exact List.length_take_le _ _
  · decide

/-- C9: `get_user_metrics` yields the absent result exactly on unknown
owner ids, and a present snapshot for every existing owner, so the two
outcomes are distinguishable. -/
theorem user_metrics_absent (env : Env) (user_id : ℕ) (now : ℤ) :
    (getUser env user_id = none → get_user_metrics env user_id now = none) ∧
    (∀ u, getUser env user_id = some u →
      (get_user_metrics env user_id now).isSome) := by
  constructor
  · intro h
    unfold get_user_metrics
    rw [h]
  · intro u h
    unfold get_user_metrics
    rw [h]
    rfl

/-- Witness for C9: a one-user store, queried for an unknown and for the
existing owner. -/
theorem user_metrics_absent_witness :
    (getUser ⟨[⟨1, none, some 5⟩], [], fun _ _ _ => 0⟩ 2 = none ∧
     get_user_metrics ⟨[⟨1, none, some 5⟩], [], fun _ _ _ => 0⟩ 2 0 = none) ∧
    (getUser ⟨[⟨1, none, some 5⟩], [], fun _ _ _ => 0⟩ 1 =
        some ⟨1, none, some 5⟩ ∧
     (get_user_metrics ⟨[⟨1, none, some 5⟩], [], fun _ _ _ => 0⟩ 1 0).isSome) := by
  have h2 : getUser ⟨[⟨1, none, some 5⟩], [], fun _ _ _ => 0⟩ 2 = none := by
    decide
  have h1 : getUser ⟨[⟨1, none, some 5⟩], [], fun _ _ _ => 0⟩ 1 =
      some ⟨1, none, some 5⟩ := by decide
  exact ⟨⟨h2, (user_metrics_absent _ 2 0).1 h2⟩,
    ⟨h1, (user_metrics_absent _ 1 0).2 _ h1⟩⟩

/-- C10: `purchase_pick` returns the not-found dict with the store
untouched when the user or pick lookup fails; any raised step after the
lookups rolls back, returning the untouched store and the error dict; and
every invocation returns one of the three result dicts (no exception
escapes). -/
theorem purchase_pick_spec (store : MStore) (user_id pick_id : ℕ)
    (raiseAt : Option PStep) :
    (store.users.find? (fun u => u == user_id) = none ∨
        store.picks.find? (fun p => p.id == pick_id) = none →
      purchase_pick store user_id pick_id raiseAt =
        (store, ⟨false, "User or pick not found", none⟩)) ∧
    (∀ step, raiseAt = some step →
      store.users.find? (fun u => u == user_id) ≠ none →
      store.picks.find? (fun p => p.id == pick_id) ≠ none →
      purchase_pick store user_id pick_id raiseAt =
        (store, ⟨false, "Error processing purchase", none⟩)) ∧
    ((purchase_pick store user_id pick_id raiseAt).2.message =
        "User or pick not found" ∨
     (purchase_pick store user_id pick_id raiseAt).2.message =
        "Error processing purchase" ∨
     (purchase_pick store user_id pick_id raiseAt).2.message =
        "Pick purchased successfully") := by
  refine ⟨?_, ?_, ?_⟩
  · intro h
    cases hu : store.users.find? (fun u => u == user_id) with
    | none =>
        cases hp : store.picks.find? (fun p => p.id == pick_id) <;>
          simp [purchase_pick, hu, hp]
    | some uu =>
        cases hp : store.picks.find? (fun p => p.id == pick_id) with
        | none => simp [purchase_pick, hu, hp]
        | some pp =>
            rcases h with h | h
            · rw [hu] at h; exact absurd h (by simp)
            · rw [hp] at h; exact absurd h (by simp)
  · intro step hstep hu hp
    cases hu2 : store.users.find? (fun u => u == user_id) with
    | none => exact absurd hu2 hu
    | some uu =>
        cases hp2 : store.picks.find? (fun p => p.id == pick_id) with
        | none => exact absurd hp2 hp
        | some pp =>
            subst hstep
            simp [purchase_pick, hu2, hp2]
  · cases hu : store.users.find? (fun u => u == user_id) <;>
      cases hp : store.picks.find? (fun p => p.id == pick_id) <;>
      cases raiseAt <;> simp [purchase_pick, hu, hp]

/-- Witness for C10: a store with user 1 and pick 7; an unknown buyer and
a failing commit step. -/
theorem purchase_pick_spec_witness :
    purchase_pick ⟨[1], [⟨7, 0, 3, true⟩], [], []⟩ 2 7 none =
      (⟨[1], [⟨7, 0, 3, true⟩], [], []⟩,
        ⟨false, "User or pick not found", none⟩) ∧
    purchase_pick ⟨[1], [⟨7, 0, 3, true⟩], [], []⟩ 1 7 (some PStep.commit) =
      (⟨[1], [⟨7, 0, 3, true⟩], [], []⟩,
        ⟨false, "Error processing purchase", none⟩) := by
  constructor
  · exact (purchase_pick_spec _ 2 7 none).1 (Or.inl (by decide))
  · exact (purchase_pick_spec _ 1 7 (some PStep.commit)).2.1 PStep.commit rfl
      (by decide) (by decide)

end Vaultapps
